import Mathlib

/-! Shallow embedding of the Claude Desktop NVDA add-on status monitor
(src/addon/globalPlugins/claudeDesktop.py): accessibility-tree scan,
status classification, and the per-cycle state update of the monitor loop. -/

/-- Accessible-node roles relevant to the plugin (controlTypes.Role values). -/
inductive Role : Type where
  | progressbar
  | animation
  | document
  | editabletext
  | other
  deriving DecidableEq

mutual
/-- Accessible node: name, role, UIA live-region setting (0 when absent),
focusability, a staleness flag (accessing the node's properties raises),
and the child list. -/
inductive ANode : Type where
  | node : String → Role → Nat → Bool → Bool → ANodeList → ANode
/-- List of accessible nodes (mutual with ANode). -/
inductive ANodeList : Type where
  | nil : ANodeList
  | cons : ANode → ANodeList → ANodeList
end

/-- Accessible name of a node (`obj.name`, with absent modelled as ""). -/
def ANode.name : ANode → String
  | ANode.node nm _ _ _ _ _ => nm

/-- Role of a node (`obj.role`). -/
def ANode.role : ANode → Role
  | ANode.node _ r _ _ _ _ => r

/-- UIA CurrentLiveSetting of a node, 0 when no live region is exposed. -/
def ANode.liveSetting : ANode → Nat
  | ANode.node _ _ lv _ _ _ => lv

/-- Whether the node is focusable (`obj.isFocusable`). -/
def ANode.focusable : ANode → Bool
  | ANode.node _ _ _ f _ _ => f

/-- Whether property access on this node raises (stale or disposed element). -/
def ANode.stale : ANode → Bool
  | ANode.node _ _ _ _ st _ => st

/-- Children of a node (`obj.children`). -/
def ANode.children : ANode → ANodeList
  | ANode.node _ _ _ _ _ cs => cs

/-- Concatenation of node lists. -/
def ANodeList.append : ANodeList → ANodeList → ANodeList
  | ANodeList.nil, l => l
  | ANodeList.cons a as, l => ANodeList.cons a (as.append l)

/-- Whether the first character list is a prefix of the second. -/
def charListPrefix : List Char → List Char → Bool
  | [], _ => true
  | _ :: _, [] => false
  | a :: as, b :: bs => decide (a = b) && charListPrefix as bs

/-- Whether the first character list occurs contiguously in the second. -/
def charListInfix : List Char → List Char → Bool
  | sub, [] => charListPrefix sub []
  | sub, b :: bs => charListPrefix sub (b :: bs) || charListInfix sub bs

/-- Python substring containment: strContains s sub models `sub in s`. -/
def strContains (s sub : String) : Bool :=
  charListInfix sub.toList s.toList

/-- Python str.lower on the ASCII names handled by the plugin. -/
def strLower (s : String) : String :=
  String.mk (s.toList.map Char.toLower)

/-- ACTION_KEYWORDS from the source: status and action indicator keywords. -/
def ACTION_KEYWORDS : List String :=
  ["thinking", "generating", "typing", "processing",
   "loading", "waiting", "sending", "responding",
   "claude is", "stop",
   "reading", "writing", "searching", "running",
   "analyzing", "creating", "editing", "executing",
   "fetching", "downloading", "uploading"]

/-- Whether a keyword of ACTION_KEYWORDS occurs in the lowercased name
(the for-loop with break in _traverse_for_status). -/
def nameHasActionKeyword (name : String) : Bool :=
  ACTION_KEYWORDS.any (fun kw => strContains (strLower name) kw)

/-- The appends performed for one visited node in _traverse_for_status:
once for a keyword match, once for a progress-bar/animation role, once for
a positive live-region setting. -/
def nodeMatches (n : ANode) : List ANode :=
  (if nameHasActionKeyword n.name then [n] else []) ++
    (if n.role = Role.progressbar ∨ n.role = Role.animation then [n] else []) ++
      (if 0 < n.liveSetting then [n] else [])

mutual
/-- _traverse_for_status: depth-bounded pre-order scan collecting status
candidates; a stale node's try-block aborts before its own checks and
before its child loop, contributing nothing. -/
def traverseForStatus (depth maxDepth : Nat) : ANode → List ANode
  | ANode.node nm r lv f st cs =>
    if maxDepth < depth then []
    else if st then []
    else nodeMatches (ANode.node nm r lv f st cs) ++
      traverseChildrenStatus (depth + 1) maxDepth cs
/-- The child loop of _traverse_for_status. -/
def traverseChildrenStatus (depth maxDepth : Nat) : ANodeList → List ANode
  | ANodeList.nil => []
  | ANodeList.cons c cs =>
    traverseForStatus depth maxDepth c ++ traverseChildrenStatus depth maxDepth cs
end

/-- _find_status_elements: scan from the window root with max_depth 25. -/
def findStatusElements (root : ANode) : List ANode :=
  traverseForStatus 0 25 root

mutual
/-- Pre-order list of the nodes actually visited and checked by the bounded
scans: cut off beyond the depth cap, and a stale subtree is not entered. -/
def preorderNodes (depth maxDepth : Nat) : ANode → List ANode
  | ANode.node nm r lv f st cs =>
    if maxDepth < depth then []
    else if st then []
    else ANode.node nm r lv f st cs :: preorderNodesList (depth + 1) maxDepth cs
/-- Pre-order visit of a child list. -/
def preorderNodesList (depth maxDepth : Nat) : ANodeList → List ANode
  | ANodeList.nil => []
  | ANodeList.cons c cs =>
    preorderNodes depth maxDepth c ++ preorderNodesList depth maxDepth cs
end

/-- The narrow generation subset checked in _get_current_status. -/
def GEN_STATUS_KEYWORDS : List String :=
  ["thinking", "generating", "stop"]

/-- Whether a name contains one of thinking/generating/stop, lowercased. -/
def hasGenKeyword (name : String) : Bool :=
  GEN_STATUS_KEYWORDS.any (fun kw => strContains (strLower name) kw)

/-- One iteration of the classification loop in _get_current_status:
stale elements and empty names are skipped; a generation-keyword name
overwrites main_status; any other name is added to the action set. -/
def classifyStep (st : Option String × Finset String) (elem : ANode) :
    Option String × Finset String :=
  if elem.stale then st
  else if elem.name = "" then st
  else if hasGenKeyword elem.name then (some elem.name, st.2)
  else (st.1, insert elem.name st.2)

/-- _get_current_status restricted to its loop over the candidate list:
returns (main_status, actions). -/
def classify (cands : List ANode) : Option String × Finset String :=
  cands.foldl classifyStep (none, ∅)

/-- _get_current_status: scan the window then classify the candidates. -/
def getCurrentStatus (window : ANode) : Option String × Finset String :=
  classify (findStatusElements window)

/-- Keywords consulted by _is_generating. -/
def GENERATING_KEYWORDS : List String :=
  ["thinking", "generating", "typing", "processing", "stop"]

/-- _is_generating: a truthy status containing a generating keyword, or a
non-empty action set. -/
def isGenerating (status : Option String) (actions : Finset String) : Bool :=
  (match status with
    | some s => decide (s ≠ "") && GENERATING_KEYWORDS.any (fun kw => strContains (strLower s) kw)
    | none => false) || decide actions.Nonempty

/-- Python truthiness of an optional string: None and "" are falsy. -/
def truthyStr : Option String → Bool
  | none => false
  | some s => decide (s ≠ "")

/-- StatusSnapshot: the classification of one poll cycle. -/
structure StatusSnapshot : Type where
  mainStatus : Option String
  actions : Finset String

/-- MonitorState: _last_status, _last_actions, _was_generating. -/
structure MonitorState : Type where
  lastStatus : Option String
  lastActions : Finset String
  wasGenerating : Bool

/-- Observable outcome of one body of _monitor_loop when a window is found:
the updated state, the status spoken by the status-change branch (none when
that branch does not fire), the set of actions announced, and whether
_on_generation_complete ran. -/
structure CycleOutput : Type where
  newState : MonitorState
  spokenStatus : Option String
  startedActions : Finset String
  completed : Bool

/-- One iteration of _monitor_loop with a window present, applied to a
snapshot (current_status, current_actions): the status branch fires only
when current_status is truthy and differs from _last_status, and only then
is _last_status assigned; new actions are the set difference; completion
fires when _was_generating holds and is_generating does not. -/
def monitorCycle (st : MonitorState) (snap : StatusSnapshot) : CycleOutput :=
  let isGen := isGenerating snap.mainStatus snap.actions
  let statusFires := truthyStr snap.mainStatus && decide (snap.mainStatus ≠ st.lastStatus)
  { newState :=
      { lastStatus := if statusFires then snap.mainStatus else st.lastStatus
        lastActions := snap.actions
        wasGenerating := isGen }
    spokenStatus := if statusFires then snap.mainStatus else none
    startedActions := snap.actions \ st.lastActions
    completed := st.wasGenerating && !isGen }

mutual
/-- _find_and_focus_response: depth-bounded pre-order search; at a node the
document/editable-text role is tried first, then a name containing
message/response, both gated on focusability; a stale node's subtree is
skipped; returns the node that receives focus. -/
def findAndFocusResponse (depth maxDepth : Nat) : ANode → Option ANode
  | ANode.node nm r lv f st cs =>
    if maxDepth < depth then none
    else if st then none
    else if (r = Role.document ∨ r = Role.editabletext) ∧ f = true then
      some (ANode.node nm r lv f st cs)
    else if (strContains (strLower nm) ("message") || strContains (strLower nm) ("response")) = true ∧ f = true then
      some (ANode.node nm r lv f st cs)
    else findFirstResponse (depth + 1) maxDepth cs
/-- The child loop of _find_and_focus_response: first successful child wins. -/
def findFirstResponse (depth maxDepth : Nat) : ANodeList → Option ANode
  | ANodeList.nil => none
  | ANodeList.cons c cs =>
    match findAndFocusResponse depth maxDepth c with
    | some r => some r
    | none => findFirstResponse depth maxDepth cs
end

/-- The per-node acceptance criterion of _find_and_focus_response: focusable
and either a document/editable-text role or a message/response name. -/
def respMatch (n : ANode) : Bool :=
  (decide (n.role = Role.document ∨ n.role = Role.editabletext) ||
    (strContains (strLower n.name) ("message") || strContains (strLower n.name) ("response"))) &&
    n.focusable

/-- An inert node carrying no status signal, used to build deep chains. -/
def dummyNode (cs : ANodeList) : ANode :=
  ANode.node ("") Role.other 0 false false cs

/-- A chain of k inert nodes above a payload node: the payload sits at
depth k below the root of the chain. -/
def chainAbove : Nat → ANode → ANode
  | 0, p => p
  | k + 1, p => dummyNode (ANodeList.cons (chainAbove k p) ANodeList.nil)

/-- Candidate element whose name bears the generation keyword thinking. -/
def genElemA : ANode :=
  ANode.node ("Claude is thinking") Role.other 0 false false ANodeList.nil

/-- Candidate element whose name bears the generation keywords stop and
generating. -/
def genElemB : ANode :=
  ANode.node ("Stop generating") Role.other 0 false false ANodeList.nil

/-- A keyword-bearing leaf used as payload in scan scenarios. -/
def kwChild : ANode :=
  ANode.node ("Claude is thinking") Role.other 0 false false ANodeList.nil

/-- A focusable node matching the response search only by its name. -/
def respNameNode : ANode :=
  ANode.node ("Response area") Role.other 0 true false ANodeList.nil

/-- A focusable node matching the response search by its document role. -/
def respRoleNode : ANode :=
  ANode.node ("doc") Role.document 0 true false ANodeList.nil

/-- A window whose pre-order traversal meets the name-matching node before
the role-matching one. -/
def respTree : ANode :=
  ANode.node ("win") Role.other 0 false false
    (ANodeList.cons respNameNode (ANodeList.cons respRoleNode ANodeList.nil))

/-- A node satisfying all three scan criteria: keyword name, progress-bar
role, and positive live-region setting. -/
def tripleNode : ANode :=
  ANode.node ("thinking") Role.progressbar 1 false false ANodeList.nil

/-! Helper lemmas about the classification fold. -/

/-- A non-stale generation-keyword candidate with a non-empty name always
overwrites the main status and leaves the action set unchanged. -/
theorem classifyStep_gen (st : Option String × Finset String) (e : ANode)
    (h1 : e.stale = false) (h2 : e.name ≠ "") (h3 : hasGenKeyword e.name = true) :
    classifyStep st e = (some e.name, st.2) := by
  simp [classifyStep, h1, h2, h3]

/-- A candidate that is stale, unnamed, or free of generation keywords never
changes the main-status component. -/
theorem classifyStep_fst_of_no_gen (st : Option String × Finset String) (x : ANode)
    (hx : x.stale = true ∨ x.name = "" ∨ hasGenKeyword x.name = false) :
    (classifyStep st x).1 = st.1 := by
  unfold classifyStep
  split
  · rfl
  · split
    · rfl
    · split
      · rename_i hst hnm hgen
        rcases hx with h | h | h
        · exact absurd h hst
        · exact absurd h hnm
        · rw [hgen] at h
          cases h
      · rfl

/-- Folding the classification over generation-free candidates preserves the
main-status component. -/
theorem classify_foldl_fst_of_no_gen (l : List ANode) :
    ∀ st : Option String × Finset String,
      (∀ x ∈ l, x.stale = true ∨ x.name = "" ∨ hasGenKeyword x.name = false) →
      (l.foldl classifyStep st).1 = st.1 := by
  induction l with
  | nil => intro st _; rfl
  | cons x xs ih =>
    intro st h
    rw [List.foldl_cons, ih (classifyStep st x) (fun y hy => h y (List.mem_cons_of_mem x hy))]
    exact classifyStep_fst_of_no_gen st x (h x (List.mem_cons_self x xs))

/-- One classification step never inserts a generation-keyword name into the
action set. -/
theorem classifyStep_gen_notMem (st : Option String × Finset String) (x : ANode)
    (s : String) (hs : hasGenKeyword s = true) (h : s ∉ st.2) :
    s ∉ (classifyStep st x).2 := by
  unfold classifyStep
  split
  · exact h
  · split
    · exact h
    · split
      · exact h
      · rename_i hgen
        simp only [Finset.mem_insert, not_or]
        refine ⟨?_, h⟩
        intro he
        rw [he] at hs
        exact hgen hs

/-- The classification fold never inserts a generation-keyword name into the
action set. -/
theorem classify_foldl_gen_notMem (l : List ANode) :
    ∀ (st : Option String × Finset String) (s : String),
      hasGenKeyword s = true → s ∉ st.2 → s ∉ (l.foldl classifyStep st).2 := by
  induction l with
  | nil => intro st s _ h; exact h
  | cons x xs ih =>
    intro st s hs h
    rw [List.foldl_cons]
    exact ih (classifyStep st x) s hs (classifyStep_gen_notMem st x s hs h)

/-- Any main status produced by the classification fold either was already
there or bears a generation keyword. -/
theorem classify_foldl_fst_gen (l : List ANode) :
    ∀ (st : Option String × Finset String) (s : String),
      (l.foldl classifyStep st).1 = some s →
      st.1 = some s ∨ hasGenKeyword s = true := by
  induction l with
  | nil => intro st s h; exact Or.inl h
  | cons x xs ih =>
    intro st s h
    rw [List.foldl_cons] at h
    rcases ih (classifyStep st x) s h with h1 | h2
    · unfold classifyStep at h1
      revert h1
      split
      · exact fun h1 => Or.inl h1
      · split
        · exact fun h1 => Or.inl h1
        · split
          · rename_i hgen
            intro h1
            simp only [Option.some.injEq] at h1
            exact Or.inr (h1 ▸ hgen)
          · exact fun h1 => Or.inl h1
    · exact Or.inr h2

/-! Helper lemma about the generation test. -/

/-- Characterization of _is_generating: a status bearing one of the
generating keywords, or a non-empty action set. -/
theorem isGenerating_eq_true_iff (status : Option String) (actions : Finset String) :
    isGenerating status actions = true ↔
      ((∃ s, status = some s ∧
          GENERATING_KEYWORDS.any (fun kw => strContains (strLower s) kw) = true) ∨
        actions.Nonempty) := by
  cases status with
  | none => simp [isGenerating]
  | some s =>
    simp only [isGenerating, Bool.or_eq_true, Bool.and_eq_true, decide_eq_true_eq,
      Option.some.injEq]
    constructor
    · rintro (⟨hne, hkw⟩ | hne)
      · exact Or.inl ⟨s, rfl, hkw⟩
      · exact Or.inr hne
    · rintro (⟨t, ht, hkw⟩ | hne)
      · rw [ht]
        by_cases hs : t = ""
        · subst hs
          exact absurd hkw (by decide)
        · exact Or.inl ⟨hs, hkw⟩
      · exact Or.inr hne

/-! Claim theorems about the monitor-loop state update. -/

/-- C1 counterexample: on the transition from the status "Claude is
thinking" to an absent status, the claimed iff (announce exactly when the
new mainStatus differs from lastStatus, in both directions) fails: the
statuses differ, yet the loop speaks nothing. -/
theorem statusChanged_silent_on_transition_to_none :
    ¬ (((monitorCycle (MonitorState.mk (some ("Claude is thinking")) ∅ true)
          (StatusSnapshot.mk none ∅)).spokenStatus ≠ none) ↔
        ((none : Option String) ≠ some ("Claude is thinking"))) := by
  decide

/-- C1 (amended): a status announcement is emitted with text s iff the new
snapshot's mainStatus is the non-empty string s and it differs from the
stored lastStatus; a transition from a value back to an absent status emits
nothing. -/
theorem statusChanged_fires_iff_present_and_different
    (st : MonitorState) (snap : StatusSnapshot) (s : String) :
    (monitorCycle st snap).spokenStatus = some s ↔
      (snap.mainStatus = some s ∧ s ≠ "" ∧ some s ≠ st.lastStatus) := by
  show (if (truthyStr snap.mainStatus && decide (snap.mainStatus ≠ st.lastStatus)) = true
      then snap.mainStatus else none) = some s ↔ _
  cases hb : (truthyStr snap.mainStatus && decide (snap.mainStatus ≠ st.lastStatus)) with
  | true =>
    rw [if_pos rfl]
    have hand := hb
    rw [Bool.and_eq_true] at hand
    obtain ⟨h1, h2⟩ := hand
    have hd : snap.mainStatus ≠ st.lastStatus := of_decide_eq_true h2
    cases hms : snap.mainStatus with
    | none =>
      rw [hms] at h1
      cases h1
    | some t =>
      rw [hms] at h1
      rw [hms] at hd
      have ht : t ≠ "" := of_decide_eq_true h1
      constructor
      · intro h
        injection h with h
        subst h
        exact ⟨rfl, ht, hd⟩
      · rintro ⟨h4, _, _⟩
        exact h4
  | false =>
    simp only [Bool.false_eq_true, if_false]
    constructor
    · intro h
      cases h
    · rintro ⟨h1, h2, h3⟩
      rw [h1] at hb
      have hb2 : (truthyStr (some s) && decide ((some s : Option String) ≠ st.lastStatus)) = true := by
        rw [show truthyStr (some s) = decide (s ≠ "") from rfl,
          decide_eq_true h2, decide_eq_true h3]
        rfl
      rw [hb2] at hb
      cases hb

/-- C2 counterexample: when the snapshot's mainStatus is absent, the stored
lastStatus is not replaced; it keeps its old value instead of becoming
None, so the update is not unconditional. -/
theorem lastStatus_not_cleared_on_none :
    ¬ ((monitorCycle (MonitorState.mk (some ("Claude is thinking")) ∅ true)
        (StatusSnapshot.mk none ∅)).newState.lastStatus = none) := by
  decide

/-- C2 (amended): lastActions and wasGenerating are unconditionally replaced
with the current cycle's values; lastStatus ends up equal to the snapshot's
mainStatus whenever that status is a non-empty string, but keeps its
previous value when the snapshot's mainStatus is absent. -/
theorem state_update_characterization (st : MonitorState) (snap : StatusSnapshot) :
    (monitorCycle st snap).newState.lastActions = snap.actions ∧
    (monitorCycle st snap).newState.wasGenerating = isGenerating snap.mainStatus snap.actions ∧
    (snap.mainStatus = none → (monitorCycle st snap).newState.lastStatus = st.lastStatus) ∧
    (∀ s, snap.mainStatus = some s → s ≠ "" →
      (monitorCycle st snap).newState.lastStatus = some s) := by
  refine ⟨rfl, rfl, ?_, ?_⟩
  · intro h
    simp [monitorCycle, truthyStr, h]
  · intro s hs hne
    by_cases hd : (some s : Option String) = st.lastStatus
    · simp [monitorCycle, truthyStr, hs, hd]
    · simp [monitorCycle, truthyStr, hs, hd, hne]

/-- C2 witness: concrete application of the state-update characterization. -/
theorem state_update_characterization_witness :
    (monitorCycle (MonitorState.mk none ∅ false)
      (StatusSnapshot.mk (some ("Reading file")) ∅)).newState.lastStatus =
      some ("Reading file") :=
  (state_update_characterization (MonitorState.mk none ∅ false)
    (StatusSnapshot.mk (some ("Reading file")) ∅)).2.2.2 ("Reading file") rfl (by decide)

/-- C5: _on_generation_complete runs in a cycle iff the previous cycle was
generating and the current snapshot is not, where generating means the
mainStatus contains one of thinking/generating/typing/processing/stop
lowercased, or the action set is non-empty; in particular it never runs
while generation continues nor from a non-generating previous cycle. -/
theorem generationCompleted_iff (st : MonitorState) (snap : StatusSnapshot) :
    ((monitorCycle st snap).completed = true ↔
      (st.wasGenerating = true ∧
        ¬ ((∃ s, snap.mainStatus = some s ∧
              GENERATING_KEYWORDS.any (fun kw => strContains (strLower s) kw) = true) ∨
            snap.actions.Nonempty))) := by
  have h := isGenerating_eq_true_iff snap.mainStatus snap.actions
  show (st.wasGenerating && !isGenerating snap.mainStatus snap.actions) = true ↔ _
  rw [Bool.and_eq_true, Bool.not_eq_true']
  constructor
  · rintro ⟨h1, h2⟩
    refine ⟨h1, fun hg => ?_⟩
    rw [h.mpr hg] at h2
    cases h2
  · rintro ⟨h1, h2⟩
    refine ⟨h1, ?_⟩
    cases hb : isGenerating snap.mainStatus snap.actions with
    | false => rfl
    | true => exact absurd (h.mp hb) h2

/-- C6: in each cycle the announced actions are exactly the set difference
between the snapshot's actions and the previous cycle's; across two
consecutive cycles, an action is announced in the second iff it is present
there and absent from the first, so a string that disappeared and
reappears fires again and a disappearing action fires nothing. -/
theorem actionStarted_iff_new (st : MonitorState) (snap1 snap2 : StatusSnapshot)
    (a : String) :
    ((monitorCycle st snap1).startedActions = snap1.actions \ st.lastActions) ∧
    (a ∈ (monitorCycle (monitorCycle st snap1).newState snap2).startedActions ↔
      (a ∈ snap2.actions ∧ a ∉ snap1.actions)) := by
  refine ⟨rfl, ?_⟩
  show a ∈ snap2.actions \ snap1.actions ↔ _
  exact Finset.mem_sdiff

/-! Claim theorems about the classifier. -/

/-- C3 counterexample: with the two generation-keyword candidates "Claude
is thinking" and "Stop generating", the classifier neither keeps the first
as mainStatus nor places the second in the action set. -/
theorem classify_first_gen_candidate_cex :
    ¬ ((classify [genElemA, genElemB]).1 = some ("Claude is thinking") ∧
      ("Stop generating") ∈ (classify [genElemA, genElemB]).2) := by
  decide

/-- C3 (amended): the last generation-keyword candidate in traversal order
becomes the mainStatus (later such candidates overwrite earlier ones), and
no generation-keyword name is ever placed in the action set. -/
theorem classify_last_gen_candidate_wins (l post : List ANode) (e : ANode)
    (h1 : e.stale = false) (h2 : e.name ≠ "") (h3 : hasGenKeyword e.name = true)
    (hpost : ∀ x ∈ post, x.stale = true ∨ x.name = "" ∨ hasGenKeyword x.name = false) :
    ((classify (l ++ e :: post)).1 = some e.name ∧
      ∀ s, hasGenKeyword s = true → s ∉ (classify (l ++ e :: post)).2) := by
  constructor
  · unfold classify
    rw [List.foldl_append, List.foldl_cons,
      classify_foldl_fst_of_no_gen post _ hpost,
      classifyStep_gen _ e h1 h2 h3]
  · intro s hs
    exact classify_foldl_gen_notMem _ _ s hs (by simp)

/-- C3 witness: on the two-candidate list the second candidate's name wins
and stays out of the action set. -/
theorem classify_last_gen_candidate_wins_witness :
    ((classify [genElemA, genElemB]).1 = some ("Stop generating") ∧
      ("Stop generating") ∉ (classify [genElemA, genElemB]).2) := by
  have h := classify_last_gen_candidate_wins [genElemA] [] genElemB
    (by decide) (by decide) (by decide)
    (fun x hx => absurd hx (List.not_mem_nil x))
  exact ⟨h.1, h.2 ("Stop generating") (by decide)⟩

/-- C9: the action set produced by the classifier never contains the string
chosen as mainStatus. -/
theorem mainStatus_not_in_actions (cands : List ANode) (s : String)
    (h : (classify cands).1 = some s) : s ∉ (classify cands).2 := by
  have hgen : hasGenKeyword s = true := by
    rcases classify_foldl_fst_gen cands (none, ∅) s h with h1 | h2
    · cases h1
    · exact h2
  exact classify_foldl_gen_notMem cands (none, ∅) s hgen (by simp)

/-- C9 witness: concrete classification with a chosen mainStatus. -/
theorem mainStatus_not_in_actions_witness :
    ("Claude is thinking") ∉ (classify [genElemA]).2 :=
  mainStatus_not_in_actions [genElemA] ("Claude is thinking") (by decide)

/-! Helper lemmas about the bounded traversals. -/

/-- A stale node contributes nothing to the status scan. -/
theorem traverse_stale (d m : Nat) (nm : String) (r : Role) (lv : Nat)
    (f : Bool) (cs : ANodeList) :
    traverseForStatus d m (ANode.node nm r lv f true cs) = [] := by
  by_cases hd : m < d <;> simp [traverseForStatus, hd]

/-- The status-scan child loop distributes over child-list concatenation. -/
theorem traverseChildren_append (d m : Nat) (l₁ l₂ : ANodeList) :
    traverseChildrenStatus d m (l₁.append l₂) =
      traverseChildrenStatus d m l₁ ++ traverseChildrenStatus d m l₂ := by
  cases l₁ with
  | nil => rfl
  | cons c cs =>
    rw [show (ANodeList.cons c cs).append l₂ = ANodeList.cons c (cs.append l₂) from rfl]
    simp only [traverseChildrenStatus]
    rw [traverseChildren_append d m cs l₂, List.append_assoc]

mutual
/-- The status scan equals the concatenated per-node matches of the
depth-capped pre-order visit. -/
theorem traverse_eq_preorder_matches (d m : Nat) (n : ANode) :
    traverseForStatus d m n = ((preorderNodes d m n).map nodeMatches).flatten := by
  cases n with
  | node nm r lv f st cs =>
    by_cases hd : m < d
    · simp [traverseForStatus, preorderNodes, hd]
    · cases st with
      | true => simp [traverseForStatus, preorderNodes, hd]
      | false =>
        rw [show traverseForStatus d m (ANode.node nm r lv f false cs) =
            nodeMatches (ANode.node nm r lv f false cs) ++
              traverseChildrenStatus (d + 1) m cs from by
          simp [traverseForStatus, hd]]
        rw [show preorderNodes d m (ANode.node nm r lv f false cs) =
            ANode.node nm r lv f false cs :: preorderNodesList (d + 1) m cs from by
          simp [preorderNodes, hd]]
        rw [List.map_cons, List.flatten_cons,
          traverseList_eq_preorder_matches (d + 1) m cs]
/-- List form of the pre-order characterization of the status scan. -/
theorem traverseList_eq_preorder_matches (d m : Nat) (l : ANodeList) :
    traverseChildrenStatus d m l = ((preorderNodesList d m l).map nodeMatches).flatten := by
  cases l with
  | nil => rfl
  | cons c cs =>
    simp only [traverseChildrenStatus, preorderNodesList]
    rw [traverse_eq_preorder_matches d m c, traverseList_eq_preorder_matches d m cs,
      List.map_append, List.flatten_append]
end

/-- A payload chained strictly beyond the depth cap contributes nothing to
the status scan. -/
theorem traverse_chain_beyond_cap (k : Nat) :
    ∀ (d m : Nat) (p : ANode), m < d + k →
      traverseForStatus d m (chainAbove k p) = [] := by
  induction k with
  | zero =>
    intro d m p h
    rw [Nat.add_zero] at h
    cases p with
    | node nm r lv f st cs =>
      simp [chainAbove, traverseForStatus, h]
  | succ k ih =>
    intro d m p h
    by_cases hd : m < d
    · simp [chainAbove, dummyNode, traverseForStatus, hd]
    · have h0 : nameHasActionKeyword ("") = false := by decide
      simp [chainAbove, dummyNode, traverseForStatus, hd, nodeMatches, ANode.name,
        ANode.role, ANode.liveSetting, h0, traverseChildrenStatus]
      exact ih (d + 1) m p (by omega)

mutual
/-- The response search returns exactly the first node of the depth-capped
pre-order visit satisfying the per-node acceptance criterion. -/
theorem findAndFocus_eq_find (d m : Nat) (n : ANode) :
    findAndFocusResponse d m n = (preorderNodes d m n).find? respMatch := by
  cases n with
  | node nm r lv f st cs =>
    by_cases hd : m < d
    · simp [findAndFocusResponse, preorderNodes, hd]
    · cases st with
      | true => simp [findAndFocusResponse, preorderNodes, hd]
      | false =>
        rw [show preorderNodes d m (ANode.node nm r lv f false cs) =
            ANode.node nm r lv f false cs :: preorderNodesList (d + 1) m cs from by
          simp [preorderNodes, hd]]
        by_cases h1 : (r = Role.document ∨ r = Role.editabletext) ∧ f = true
        · rw [show findAndFocusResponse d m (ANode.node nm r lv f false cs) =
              some (ANode.node nm r lv f false cs) from by
            simp [findAndFocusResponse, hd, h1]]
          rw [List.find?_cons_of_pos _ (by
            simp [respMatch, ANode.role, ANode.name, ANode.focusable, h1.1, h1.2])]
        · by_cases h2 : (strContains (strLower nm) ("message") ||
              strContains (strLower nm) ("response")) = true ∧ f = true
          · rw [show findAndFocusResponse d m (ANode.node nm r lv f false cs) =
                some (ANode.node nm r lv f false cs) from by
              simp [findAndFocusResponse, hd, h1, h2]]
            rw [List.find?_cons_of_pos _ (by
              simp [respMatch, ANode.role, ANode.name, ANode.focusable, h2.1, h2.2])]
          · rw [show findAndFocusResponse d m (ANode.node nm r lv f false cs) =
                findFirstResponse (d + 1) m cs from by
              simp only [findAndFocusResponse, Bool.false_eq_true, if_false]
              rw [if_neg hd, if_neg h1, if_neg h2]]
            have hr : respMatch (ANode.node nm r lv f false cs) = false := by
              by_cases hf : f = true
              · have hrole : ¬(r = Role.document ∨ r = Role.editabletext) :=
                  fun hc => h1 ⟨hc, hf⟩
                have hname : (strContains (strLower nm) ("message") ||
                    strContains (strLower nm) ("response")) = false := by
                  cases hn : (strContains (strLower nm) ("message") ||
                      strContains (strLower nm) ("response")) with
                  | false => rfl
                  | true => exact absurd ⟨hn, hf⟩ h2
                simp [respMatch, ANode.role, ANode.name, ANode.focusable, hf, hname,
                  decide_eq_false hrole]
              · have hff : f = false := by
                  revert hf
                  cases f <;> simp
                simp [respMatch, ANode.focusable, hff]
            rw [List.find?_cons_of_neg _ (by simp [hr])]
            exact findFirst_eq_find (d + 1) m cs
/-- List form of the pre-order characterization of the response search. -/
theorem findFirst_eq_find (d m : Nat) (l : ANodeList) :
    findFirstResponse d m l = (preorderNodesList d m l).find? respMatch := by
  cases l with
  | nil => rfl
  | cons c cs =>
    simp only [findFirstResponse, preorderNodesList]
    rw [findAndFocus_eq_find d m c, findFirst_eq_find d m cs, List.find?_append]
    cases (preorderNodes d m c).find? respMatch <;> rfl
end

/-! Claim theorems about the bounded traversals. -/

/-- C4 counterexample: a focusable node matching only by name sits earlier
in pre-order than a focusable document-role node, and it is the one that
receives focus, although a role-matching focusable node exists within the
depth cap. -/
theorem respFocus_name_beats_later_role_cex :
    (findAndFocusResponse 0 15 respTree = some respNameNode ∧
      respNameNode.role ≠ Role.document ∧ respNameNode.role ≠ Role.editabletext ∧
      respRoleNode ∈ preorderNodes 0 15 respTree ∧
      respRoleNode.role = Role.document ∧ respRoleNode.focusable = true) := by
  refine ⟨rfl, by decide, by decide, ?_, rfl, rfl⟩
  show respRoleNode ∈ respTree :: respNameNode :: respRoleNode :: []
  exact List.mem_cons_of_mem _ (List.mem_cons_of_mem _ (List.mem_cons_self _ _))

/-- C4 (amended): the response search is a single depth-capped pre-order
traversal whose first visited node satisfying the per-node criterion
(focusable and either document/editable-text role or message/response
name) wins; role matching is tried before name matching only within one
node and does not take precedence across nodes. -/
theorem respFocus_eq_first_preorder_match (d m : Nat) (n : ANode) :
    findAndFocusResponse d m n = (preorderNodes d m n).find? respMatch :=
  findAndFocus_eq_find d m n

/-- C7: the status scan is the per-node matches of the depth-first
pre-order visit in order, the visit yields nothing once depth exceeds the
cap, and a payload placed one level deeper than maxDepth is never
scanned. -/
theorem scan_preorder_and_depth_cap :
    ((∀ (d m : Nat) (n : ANode),
      traverseForStatus d m n = ((preorderNodes d m n).map nodeMatches).flatten) ∧
    (∀ (m k : Nat) (n : ANode), preorderNodes (m + k + 1) m n = []) ∧
    (∀ (m : Nat) (p : ANode), traverseForStatus 0 m (chainAbove (m + 1) p) = [])) := by
  refine ⟨traverse_eq_preorder_matches, ?_, ?_⟩
  · intro m k n
    cases n with
    | node nm r lv f st cs => simp [preorderNodes, show m < m + k + 1 from by omega]
  · intro m p
    exact traverse_chain_beyond_cap (m + 1) 0 m p (by omega)

/-- C8 counterexample: under a stale root the keyword-bearing child is
reachable and within the depth cap, yet the scan returns nothing, while
the same tree with a healthy root yields the child. -/
theorem scan_stale_subtree_skipped_cex :
    (traverseForStatus 0 25 (ANode.node ("root") Role.other 0 false true
        (ANodeList.cons kwChild ANodeList.nil)) = [] ∧
      traverseForStatus 0 25 (ANode.node ("root") Role.other 0 false false
        (ANodeList.cons kwChild ANodeList.nil)) = [kwChild]) :=
  ⟨rfl, rfl⟩

/-- C8 (amended): a per-node access failure is caught and never aborts the
scan, but it silences the whole failing subtree, not just the node: a
stale node contributes nothing, and among its siblings the scan proceeds
exactly as if the stale node were absent. -/
theorem scan_stale_node_as_absent :
    ((∀ (d m : Nat) (nm : String) (r : Role) (lv : Nat) (f : Bool) (cs : ANodeList),
      traverseForStatus d m (ANode.node nm r lv f true cs) = []) ∧
    (∀ (d m : Nat) (cs₁ cs₂ : ANodeList) (snm : String) (sr : Role) (slv : Nat)
        (sf : Bool) (scs : ANodeList),
      traverseChildrenStatus d m
          (cs₁.append (ANodeList.cons (ANode.node snm sr slv sf true scs) cs₂)) =
        traverseChildrenStatus d m (cs₁.append cs₂))) := by
  refine ⟨traverse_stale, ?_⟩
  intro d m cs₁ cs₂ snm sr slv sf scs
  rw [traverseChildren_append, traverseChildren_append]
  simp only [traverseChildrenStatus]
  rw [traverse_stale]
  rfl

/-- C10: each visited healthy node is appended once per satisfied
criterion, so its per-visit contribution is a replicate of length equal to
the number of satisfied criteria, and a node meeting all three criteria
occurs three times in the scan output. -/
theorem scan_multiplicity_per_criterion :
    ((∀ (nm : String) (r : Role) (lv : Nat) (f : Bool) (cs : ANodeList) (m : Nat),
      traverseForStatus 0 m (ANode.node nm r lv f false cs) =
        nodeMatches (ANode.node nm r lv f false cs) ++ traverseChildrenStatus 1 m cs) ∧
    (∀ n : ANode,
      nodeMatches n = List.replicate
        ((if nameHasActionKeyword n.name then 1 else 0) +
          (if n.role = Role.progressbar ∨ n.role = Role.animation then 1 else 0) +
          (if 0 < n.liveSetting then 1 else 0)) n) ∧
    traverseForStatus 0 5 tripleNode = [tripleNode, tripleNode, tripleNode]) := by
  refine ⟨?_, ?_, rfl⟩
  · intro nm r lv f cs m
    simp [traverseForStatus]
  · intro n
    unfold nodeMatches
    split_ifs <;> rfl
